import Mathlib

/-!
Verification of the `yocto` deployment tool (SeismicSystems/deploy).

This file shallowly embeds the parts of the Python source that the
specification talks about:

* the JSON metadata document and its operations
  (`yocto/utils/metadata.py`, `DeployOutput.update_deploy_metadata` in
  `yocto/deployment/deploy.py`),
* the deployment pipeline `deploy_image` (`yocto/deployment/deploy.py`),
  modelled as the trace of cloud-API calls it performs, with the cloud's
  answers to its queries (image existence, disk existence) passed in as
  explicit oracle parameters,
* the genesis IP allocator (`yocto/genesis_deploy.py`),
* the artifact-name utilities (`yocto/utils/artifact.py`),
* region validation and VM-config construction
  (`yocto/cloud_config.py`, `yocto/config/vm_config.py`,
  `yocto/azure/defaults.py`),
* the GCP instance-creation request builder
  (`GcpApi.create_vm` in `yocto/cloud/gcp/api.py`).

Python dictionaries are modelled as association lists without duplicate
keys; `d[k] = v` keeps the position of an existing key and appends
otherwise, exactly like CPython.  Fallible Python code (exceptions)
returns `Except`/`Option`.
-/

namespace Deploy

/-! ## JSON values and dictionary operations -/

/-- A JSON value, as produced by `json.load` of the metadata file. -/
inductive Json where
  | null : Json
  | bool : Bool → Json
  | num : Int → Json
  | str : String → Json
  | arr : List Json → Json
  | obj : List (String × Json) → Json

/-- A JSON object body: a Python `dict` with string keys. -/
abbrev JObj := List (String × Json)

/-- `d.get(k)` on a Python dict. -/
def dictFind : JObj → String → Option Json
  | [], _ => none
  | p :: t, k => if p.1 = k then some p.2 else dictFind t k

/-- `k in d` on a Python dict. -/
def hasKey : JObj → String → Bool
  | [], _ => false
  | p :: t, k => p.1 = k || hasKey t k

/-- `d[k] = v` on a Python dict: replace in place if the key exists,
append otherwise. -/
def setEntry : JObj → String → Json → JObj
  | [], k, v => [(k, v)]
  | p :: t, k, v => if p.1 = k then (k, v) :: t else p :: setEntry t k v

/-- `d.pop(k)` (the removal effect) on a Python dict. -/
def eraseEntry : JObj → String → JObj
  | [], _ => []
  | p :: t, k => if p.1 = k then eraseEntry t k else p :: eraseEntry t k

/-- Extract the fields of a JSON object; `none` on any other value
(where Python dict operations would raise). -/
def jobj? : Json → Option JObj
  | Json.obj l => some l
  | _ => none

theorem dictFind_setEntry_self (l : JObj) (k : String) (v : Json) :
    dictFind (setEntry l k v) k = some v := by
  induction l with
  | nil => simp [setEntry, dictFind]
  | cons p t ih =>
    by_cases hp : p.1 = k
    · simp [setEntry, hp, dictFind]
    · simp [setEntry, hp, dictFind, ih]

theorem dictFind_setEntry_ne (l : JObj) (k k' : String) (v : Json)
    (h : k' ≠ k) : dictFind (setEntry l k v) k' = dictFind l k' := by
  induction l with
  | nil => simp [setEntry, dictFind, Ne.symm h]
  | cons p t ih =>
    by_cases hp : p.1 = k
    · simp [setEntry, hp, dictFind, Ne.symm h, h, ih]
    · by_cases hp' : p.1 = k'
      · simp [setEntry, hp, dictFind, hp', h]
      · simp [setEntry, hp, dictFind, hp', ih]

theorem hasKey_setEntry_self (l : JObj) (k : String) (v : Json) :
    hasKey (setEntry l k v) k = true := by
  induction l with
  | nil => simp [setEntry, hasKey]
  | cons p t ih =>
    by_cases hp : p.1 = k
    · simp [setEntry, hp, hasKey]
    · simp [setEntry, hp, hasKey, ih]

theorem hasKey_setEntry_ne (l : JObj) (k k' : String) (v : Json)
    (h : k' ≠ k) : hasKey (setEntry l k v) k' = hasKey l k' := by
  induction l with
  | nil => simp [setEntry, hasKey, Ne.symm h]
  | cons p t ih =>
    by_cases hp : p.1 = k
    · simp [setEntry, hp, hasKey, Ne.symm h]
    · simp [setEntry, hp, hasKey, ih]

theorem dictFind_eraseEntry_self (l : JObj) (k : String) :
    dictFind (eraseEntry l k) k = none := by
  induction l with
  | nil => simp [eraseEntry, dictFind]
  | cons p t ih =>
    by_cases hp : p.1 = k
    · simp [eraseEntry, hp, ih]
    · simp [eraseEntry, hp, dictFind, ih]

theorem dictFind_eraseEntry_ne (l : JObj) (k k' : String)
    (h : k' ≠ k) : dictFind (eraseEntry l k) k' = dictFind l k' := by
  induction l with
  | nil => simp [eraseEntry]
  | cons p t ih =>
    by_cases hp : p.1 = k
    · have hne : ¬ p.1 = k' := by rw [hp]; exact Ne.symm h
      simp [eraseEntry, hp, dictFind, hne, ih, Ne.symm h]
    · by_cases hp' : p.1 = k'
      · simp [eraseEntry, hp, dictFind, hp', h]
      · simp [eraseEntry, hp, dictFind, hp', ih]

/-! ## Configuration data (`yocto/config/vm_config.py`, `domain_config.py`) -/

/-- `VmConfigs` dataclass (`yocto/config/vm_config.py`).  The `cloud`
field is a plain string ("azure" or "gcp"), as in the Python dataclass;
the port fields do not appear in `to_dict` and are omitted. -/
structure VmConfigs where
  resource_group : String
  name : String
  nsg_name : String
  cloud : String
  region : String
  size : String

/-- `VmConfigs.get_disk_name`. -/
def VmConfigs.get_disk_name (vm_name : String) (artifact : String) : String :=
  vm_name ++ "_" ++ artifact

/-- `VmConfigs.disk_name` applied to the basename of the image path. -/
def VmConfigs.disk_name (c : VmConfigs) (imageName : String) : String :=
  VmConfigs.get_disk_name c.name imageName

/-- `VmConfigs.location` is an alias for `region`. -/
def VmConfigs.location (c : VmConfigs) : String := c.region

/-- `VmConfigs.to_dict`. -/
def VmConfigs.to_dict (c : VmConfigs) : Json :=
  Json.obj [("resourceGroup", Json.str c.resource_group),
            ("name", Json.str c.name),
            ("nsgName", Json.str c.nsg_name),
            ("cloud", Json.str c.cloud),
            ("region", Json.str c.region),
            ("size", Json.str c.size)]

/-- `DomainConfig` dataclass (`yocto/config/domain_config.py`). -/
structure DomainConfig where
  record : String
  resource_group : String
  name : String

/-- `DomainConfig.to_dict`. -/
def DomainConfig.to_dict (d : DomainConfig) : Json :=
  Json.obj [("url", Json.str ("https://" ++ d.record ++ "." ++ d.name)),
            ("record", Json.str d.record),
            ("name", Json.str d.name),
            ("resource_group", Json.str d.resource_group)]

/-- The parts of `DeployConfigs` the deployment pipeline reads. -/
structure DeployConfigs where
  vm : VmConfigs
  domain : DomainConfig
  email : String
  source_ip : String
  show_logs : Bool

/-! ## Metadata store (`yocto/utils/metadata.py`,
`DeployOutput.update_deploy_metadata` in `yocto/deployment/deploy.py`)

`load_metadata`/`write_metadata` are file IO around a single JSON
document; the functions below take and return the document itself. -/

/-- `filter_resources_by_cloud` (`yocto/utils/metadata.py`, lines 59-78).

```
resources = metadata.get("resources", {})
filtered = {}
for name, resource in resources.items():
    vm_info = resource.get("vm", {})
    if vm_info.get("cloud") == cloud:
        filtered[name] = resource
return filtered
```

Non-object values where Python would call `.items()`/`.get` are treated
as empty; the claims only evaluate this on object-shaped documents. -/
def filter_resources_by_cloud (metadata : JObj) (cloud : String) : JObj :=
  let resources := ((dictFind metadata "resources").bind jobj?).getD []
  resources.filter (fun p =>
    let vm_info := ((jobj? p.2).bind (fun r => dictFind r "vm")).bind jobj? |>.getD []
    match dictFind vm_info "cloud" with
    | some (Json.str s) => s = cloud
    | _ => false)

/-- `remove_artifact_from_metadata` (`yocto/utils/metadata.py`,
lines 31-38).  Returns `none` where Python would raise (an `artifacts`
value that is not a dict). -/
def remove_artifact_from_metadata (name : String) (metadata : JObj) :
    Option JObj :=
  match dictFind metadata "artifacts" with
  | none => some metadata
  | some (Json.obj artifacts) =>
    if hasKey artifacts name then
      some (setEntry metadata "artifacts"
        (Json.obj (eraseEntry artifacts name)))
    else
      some metadata
  | some _ => none

/-- The record value `DeployOutput.update_deploy_metadata` writes for
the deployed VM. -/
def vmMetadataRecord (configs : DeployConfigs) (artifact public_ip : String)
    (data_disk_name : Option String) : JObj :=
  let base := [("artifact", Json.str artifact),
               ("public_ip", Json.str public_ip),
               ("domain", configs.domain.to_dict),
               ("vm", configs.vm.to_dict)]
  match data_disk_name with
  | some d => base ++ [("data_disk", Json.str d)]
  | none => base

/-- The `if "resources" not in metadata` step of
`update_deploy_metadata`. -/
def ensureResourcesKey (metadata : JObj) : JObj :=
  if hasKey metadata "resources" then metadata
  else setEntry metadata "resources"
    (Json.obj [("azure", Json.obj []), ("gcp", Json.obj [])])

/-- The `if cloud not in metadata["resources"]` step. -/
def ensureCloudBucket (resources : JObj) (cloud : String) : JObj :=
  if hasKey resources cloud then resources
  else setEntry resources cloud (Json.obj [])

/-- `DeployOutput.update_deploy_metadata` (`yocto/deployment/deploy.py`,
lines 122-143), as a transformer of the metadata document.

```
if "resources" not in metadata:
    metadata["resources"] = {"azure": {}, "gcp": {}}
cloud = self.configs.vm.cloud
if cloud not in metadata["resources"]:
    metadata["resources"][cloud] = {}
vm_metadata = {...}
if self.data_disk_name:
    vm_metadata["data_disk"] = self.data_disk_name
metadata["resources"][cloud][self.configs.vm.name] = vm_metadata
```

Returns `none` where Python would raise a `TypeError` (a `resources`
value or provider bucket that is not a dict).  The two initial `if`
steps are `ensureResourcesKey` and `ensureCloudBucket`. -/
def update_deploy_metadata (configs : DeployConfigs)
    (artifact public_ip : String) (data_disk_name : Option String)
    (metadata : JObj) : Option JObj :=
  let metadata := ensureResourcesKey metadata
  match dictFind metadata "resources" with
  | some (Json.obj resources) =>
    let resources := ensureCloudBucket resources configs.vm.cloud
    match dictFind resources configs.vm.cloud with
    | some (Json.obj bucket) =>
      some (setEntry metadata "resources"
        (Json.obj (setEntry resources configs.vm.cloud
          (Json.obj (setEntry bucket configs.vm.name
            (Json.obj (vmMetadataRecord configs artifact public_ip
              data_disk_name)))))))
    | _ => none
  | _ => none

/-- Look up the record of VM `name` under provider `cloud` in a
metadata document. -/
def getVmRecord (metadata : JObj) (cloud name : String) : Option Json :=
  ((((dictFind metadata "resources").bind jobj?).bind
    (fun r => dictFind r cloud)).bind jobj?).bind
    (fun b => dictFind b name)

/-! ## Deployment pipeline (`deploy_image` in `yocto/deployment/deploy.py`)

`deploy_image` is a straight-line sequence of cloud-API calls.  We model
it as the trace of calls it performs.  The cloud's answers to its two
queries — `image_path.exists()` and `cloud_api.disk_exists(...)` — are
passed in as oracle booleans, and the IP returned by `get_vm_ip` as an
oracle string. -/

/-- One cloud-API call made by `deploy_image`, with the arguments the
call site passes. -/
inductive CloudCall where
  | disk_exists_query (diskName : String)
  | create_disk (diskName : String)
  | upload_disk
  | create_nsg
  | create_standard_nsg_rules
  | create_data_disk (resourceGroup diskName location : String) (sizeGb : Nat)
  | create_vm (ipName diskName : String) (dataDiskName : Option String)
  | attach_data_disk (resourceGroup vmName diskName zone : String) (lun : Nat)
  | get_vm_ip (vmName resourceGroup location : String)
deriving DecidableEq

/-- `deploy_image` (`yocto/deployment/deploy.py`, lines 47-111).

Returns the trace of cloud calls actually performed, paired with either
the returned `(public_ip, data_disk_name)` pair or the
`FileNotFoundError` message.  `imageName` is `image_path.name`. -/
def deploy_image (imageExists diskExists : Bool) (publicIp : String)
    (configs : DeployConfigs) (imageName ip_name : String) :
    List CloudCall × Except String (String × String) :=
  if ¬ imageExists then
    ([], Except.error ("Image path not found: " ++ imageName))
  else
    let disk_name := VmConfigs.get_disk_name configs.vm.name imageName
    let diskCalls :=
      if diskExists then
        [CloudCall.disk_exists_query disk_name]
      else
        [CloudCall.disk_exists_query disk_name,
         CloudCall.create_disk disk_name]
    let data_disk_name := configs.vm.name ++ "-persistent"
    let setupCalls :=
      [CloudCall.upload_disk,
       CloudCall.create_nsg,
       CloudCall.create_standard_nsg_rules,
       CloudCall.create_data_disk configs.vm.resource_group data_disk_name
         configs.vm.location 1024]
    let vmCalls :=
      if configs.vm.cloud = "gcp" then
        [CloudCall.create_vm ip_name disk_name (some data_disk_name)]
      else
        [CloudCall.create_vm ip_name disk_name none,
         CloudCall.attach_data_disk configs.vm.resource_group configs.vm.name
           data_disk_name configs.vm.location 10]
    let trace := diskCalls ++ setupCalls ++ vmCalls ++
      [CloudCall.get_vm_ip configs.vm.name configs.vm.resource_group
        configs.vm.location]
    (trace, Except.ok (publicIp, data_disk_name))

/-! ## Genesis IP manager (`yocto/genesis_deploy.py`) -/

/-- Cloud-side state the genesis IP manager touches: the named static
IP resources, keyed by (resource name, resource group). -/
structure IpState where
  ips : List ((String × String) × String)

/-- `get_existing_public_ip`: the IP of the named resource, or `none`. -/
def lookupIp (st : IpState) (name rg : String) : Option String :=
  (st.ips.find? (fun p => p.1 = (name, rg))).map (·.2)

/-- Cloud state after `create_public_ip` allocates `ip` under
`(name, rg)`. -/
def recordIp (st : IpState) (name rg ip : String) : IpState :=
  ⟨((name, rg), ip) :: st.ips⟩

/-- One observable action of `GenesisIPManager.get_or_create_node_ip`. -/
inductive GenCall where
  | ensure_resource_group (name region : String)
  | get_existing_public_ip (name rg : String)
  | confirm_prompt (what : String)
  | create_public_ip (name rg region : String)
deriving DecidableEq

/-- `GenesisIPManager.get_or_create_node_ip` (`yocto/genesis_deploy.py`,
lines 36-59).

`userConfirms` is the interactive answer to `confirm` (which raises
`ValueError` unless the user types "y",
`yocto/cloud/cloud_parser.py`, lines 309-322); `freshIp` is the address
the cloud hands back from `create_public_ip`.  Python's
`if existing_ip:` is truthiness, so an empty-string IP takes the
creation path. -/
def get_or_create_node_ip (st : IpState) (userConfirms : Bool)
    (freshIp : String) (ip_rg : String) (node : Nat) (region : String) :
    Except String (List GenCall × (String × String) × IpState) :=
  let ip_name := "genesis-node-" ++ toString node
  let calls := [GenCall.ensure_resource_group ip_rg region,
                GenCall.get_existing_public_ip ip_name ip_rg]
  let what := "create new IP for node " ++ toString node ++ " @ " ++ ip_name
  let createBranch : Except String (List GenCall × (String × String) × IpState) :=
    if userConfirms then
      Except.ok (calls ++ [GenCall.confirm_prompt what,
                           GenCall.create_public_ip ip_name ip_rg region],
                 (freshIp, ip_name),
                 recordIp st ip_name ip_rg freshIp)
    else
      Except.error ("Aborting; will not " ++ what)
  match lookupIp st ip_name ip_rg with
  | some existing_ip =>
    if existing_ip = "" then createBranch
    else Except.ok (calls, (existing_ip, ip_name), st)
  | none => createBranch

/-! ## Cloud provider configuration (`yocto/cloud_config.py`,
`yocto/azure/defaults.py`, `yocto/gcp/defaults.py`) and
`VmConfigs.from_args` -/

/-- `CloudProvider` enum. -/
inductive CloudProvider where
  | azure : CloudProvider
  | gcp : CloudProvider
deriving DecidableEq

/-- The string value of the enum member. -/
def CloudProvider.str : CloudProvider → String
  | CloudProvider.azure => "azure"
  | CloudProvider.gcp => "gcp"

/-- `AZURE_REGIONS` (`yocto/cloud_config.py`). -/
def AZURE_REGIONS : List String := ["eastus", "westus3", "westeurope"]

/-- `GCP_ZONES` (`yocto/cloud_config.py`). -/
def GCP_ZONES : List String := ["us-central1-a", "asia-northeast1-b"]

/-- `DEFAULT_REGION` (`yocto/azure/defaults.py`, line 14). -/
def azureDEFAULT_REGION : String := "eastus2"

/-- `DEFAULT_RESOURCE_GROUP` (`yocto/azure/defaults.py`). -/
def azureDEFAULT_RESOURCE_GROUP : String := "tdx-testnet"

/-- `DEFAULT_VM_SIZE` (`yocto/azure/defaults.py`). -/
def azureDEFAULT_VM_SIZE : String := "Standard_DC4es_v6"

/-- `DEFAULT_ZONE` (`yocto/gcp/defaults.py`). -/
def gcpDEFAULT_ZONE : String := "us-central1-a"

/-- `DEFAULT_PROJECT` (`yocto/gcp/defaults.py`). -/
def gcpDEFAULT_PROJECT : String := "testnet-477314"

/-- `DEFAULT_VM_TYPE` (`yocto/gcp/defaults.py`). -/
def gcpDEFAULT_VM_TYPE : String := "c3-standard-4"

/-- `get_default_region` (`yocto/cloud_config.py`). -/
def get_default_region : CloudProvider → String
  | CloudProvider.azure => azureDEFAULT_REGION
  | CloudProvider.gcp => gcpDEFAULT_ZONE

/-- `get_default_resource_group` (`yocto/cloud_config.py`). -/
def get_default_resource_group : CloudProvider → String
  | CloudProvider.azure => azureDEFAULT_RESOURCE_GROUP
  | CloudProvider.gcp => gcpDEFAULT_PROJECT

/-- `get_default_vm_size` (`yocto/cloud_config.py`). -/
def get_default_vm_size : CloudProvider → String
  | CloudProvider.azure => azureDEFAULT_VM_SIZE
  | CloudProvider.gcp => gcpDEFAULT_VM_TYPE

/-- Insertion step for `sorted(...)` on strings. -/
def insertSorted (s : String) : List String → List String
  | [] => [s]
  | x :: t => if s ≤ x then s :: x :: t else x :: insertSorted s t

/-- Python `sorted(...)` on a collection of strings. -/
def sortStrings (l : List String) : List String :=
  l.foldr insertSorted []

/-- `validate_region` (`yocto/cloud_config.py`, lines 47-69): raises
`ValueError` (here: `Except.error`) if the region is not in the valid
set for the provider. -/
def validate_region (cloud : CloudProvider) (region : String) :
    Except String Unit :=
  match cloud with
  | CloudProvider.azure =>
    if region ∈ AZURE_REGIONS then Except.ok ()
    else Except.error ("Invalid Azure region: " ++ region ++
      ". Valid Azure regions are: " ++
      String.intercalate ", " (sortStrings AZURE_REGIONS))
  | CloudProvider.gcp =>
    if region ∈ GCP_ZONES then Except.ok ()
    else Except.error ("Invalid GCP zone: " ++ region ++
      ". Valid GCP zones are: " ++
      String.intercalate ", " (sortStrings GCP_ZONES))

/-- `VmConfigs.from_args` (`yocto/config/vm_config.py`, lines 19-59).
The optional arguments model `args.resource_group`, `args.region` and
`args.vm_size` being `None` or supplied. -/
def VmConfigs.from_args (cloud : CloudProvider)
    (resource_group region vm_size : Option String) :
    Except String VmConfigs :=
  let resource_group := resource_group.getD (get_default_resource_group cloud)
  let region := region.getD (get_default_region cloud)
  let vm_size := vm_size.getD (get_default_vm_size cloud)
  (validate_region cloud region).map (fun _ =>
    { resource_group := resource_group
      name := resource_group
      nsg_name := resource_group
      cloud := cloud.str
      region := region
      size := vm_size })

/-! ## GCP instance-creation request (`GcpApi.create_vm`,
`yocto/cloud/gcp/api.py`, lines 626-704) -/

/-- The fields of the `compute_v1.Instance` insert request that
`GcpApi.create_vm` populates.  `accessConfigs` is the network
interface's access-configuration list, which the code never sets (it
stays at the proto default, the empty list): this is the slot where a
static external IP would have to be named to be bound at creation. -/
structure GcpVmRequest where
  project : String
  zone : String
  name : String
  machineType : String
  network : String
  stackType : String
  nicType : String
  accessConfigs : List String
  diskSource : String
  diskDeviceName : String
  diskBoot : Bool
  diskAutoDelete : Bool
  userData : String
deriving DecidableEq

/-- `DEFAULT_NIC_TYPE` (`yocto/gcp/defaults.py`). -/
def DEFAULT_NIC_TYPE : String := "GVNIC"

/-- The user-data file content written by
`GcpApi.create_user_data_file`. -/
def gcp_user_data (config : DeployConfigs) : String :=
  "CERTBOT_EMAIL=\"" ++ config.email ++ "\"\n" ++
  "RECORD_NAME=\"" ++ config.domain.record ++ "\"\n" ++
  "DOMAIN=\"" ++ config.domain.name ++ "\"\n"

/-- The instance-creation request built by `GcpApi.create_vm`
(`yocto/cloud/gcp/api.py`, lines 626-704) from its three arguments
`(config, image_path, ip_name)`.  `imageName` is `image_path.name`. -/
def GcpApi.create_vm_request (config : DeployConfigs) (imageName : String)
    (ip_name : String) : GcpVmRequest :=
  let disk_name := config.vm.disk_name imageName
  { project := config.vm.resource_group
    zone := config.vm.location
    name := config.vm.name
    machineType := "zones/" ++ config.vm.location ++ "/machineTypes/" ++
      config.vm.size
    network := "projects/" ++ config.vm.resource_group ++
      "/global/networks/default"
    stackType := "IPV4_ONLY"
    nicType := DEFAULT_NIC_TYPE
    accessConfigs := []
    diskSource := "projects/" ++ config.vm.resource_group ++ "/zones/" ++
      config.vm.location ++ "/disks/" ++ disk_name
    diskDeviceName := config.vm.name
    diskBoot := true
    diskAutoDelete := true
    userData := gcp_user_data config }

/-! ## Artifact utilities (`yocto/utils/artifact.py`)

`_extract_timestamp` searches the filename with the regular expression
`.*?(\d{14}).*`; `re.search` with a lazy prefix yields the leftmost run
of 14 consecutive digits.  `find14Run` below computes exactly that. -/

/-- The first 14 characters, if there are 14 of them and all are
digits. -/
def digits14? (l : List Char) : Option (List Char) :=
  let t := l.take 14
  if t.length = 14 ∧ t.all Char.isDigit then some t else none

/-- The leftmost run of 14 consecutive digits in a character list (the
match of `re.search(r".*?(\d{14}).*", _)`). -/
def find14Run : List Char → Option (List Char)
  | [] => none
  | c :: rest =>
    match digits14? (c :: rest) with
    | some run => some run
    | none => find14Run rest

/-- The old-format example filename in the error message. -/
def oldExample : String := "cvm-image-azure-tdx.rootfs-20241202202935.wic.vhd"

/-- The new-format example filename in the error message. -/
def newExample : String := "seismic-dev-azure-20250110120000.vhd"

/-- The `ValueError` message of `_extract_timestamp`. -/
def invalidNameMsg (artifact : String) : String :=
  "Invalid artifact name: " ++ artifact ++ ". Should be like \"" ++
    oldExample ++ "\" or \"" ++ newExample ++ "\""

/-- `_extract_timestamp` (`yocto/utils/artifact.py`, lines 13-31). -/
def extract_timestamp (artifact : String) : Except String (List Char) :=
  match find14Run artifact.toList with
  | some run => Except.ok run
  | none => Except.error (invalidNameMsg artifact)

/-- Leap year rule of the proleptic Gregorian calendar (as used by
`datetime`). -/
def isLeapYear (y : Nat) : Bool :=
  (y % 4 = 0 && y % 100 ≠ 0) || y % 400 = 0

/-- Number of days in a month. -/
def daysInMonth (y m : Nat) : Nat :=
  if m = 2 then (if isLeapYear y then 29 else 28)
  else if m = 4 ∨ m = 6 ∨ m = 9 ∨ m = 11 then 30 else 31

/-- Days between 1970-01-01 and the given civil date (valid for
year ≥ 1). -/
def daysFromCivil (y m d : Nat) : Int :=
  let yy : Nat := if m ≤ 2 then y - 1 else y
  let era : Nat := yy / 400
  let yoe : Nat := yy % 400
  let mp : Nat := (m + 9) % 12
  let doy : Nat := (153 * mp + 2) / 5 + (d - 1)
  let doe : Nat := yoe * 365 + yoe / 4 - yoe / 100 + doy
  (era * 146097 + doe : Int) - 719468

/-- Digit value of a character. -/
def digitVal (c : Char) : Nat := c.toNat - 48

/-- The number denoted by a list of digit characters. -/
def natOfDigits (l : List Char) : Nat :=
  l.foldl (fun a c => a * 10 + digitVal c) 0

/-- A parsed `YYYYMMDDHHMMSS` value. -/
structure DateTime6 where
  year : Nat
  month : Nat
  day : Nat
  hour : Nat
  minute : Nat
  second : Nat
deriving DecidableEq

/-- `datetime.strptime(run, "%Y%m%d%H%M%S")` on a 14-digit run: the six
fields, validated exactly as CPython does (year 1-9999, month 1-12, day
within the month, hour 0-23, minute 0-59, second 0-59); `none` models
the `ValueError`. -/
def strptime14 (run : List Char) : Option DateTime6 :=
  let y := natOfDigits (run.take 4)
  let mo := natOfDigits ((run.drop 4).take 2)
  let d := natOfDigits ((run.drop 6).take 2)
  let h := natOfDigits ((run.drop 8).take 2)
  let mi := natOfDigits ((run.drop 10).take 2)
  let s := natOfDigits ((run.drop 12).take 2)
  if 1 ≤ y ∧ 1 ≤ mo ∧ mo ≤ 12 ∧ 1 ≤ d ∧ d ≤ daysInMonth y mo ∧
      h ≤ 23 ∧ mi ≤ 59 ∧ s ≤ 59 then
    some ⟨y, mo, d, h, mi, s⟩
  else none

/-- `dt.timestamp()` of a parsed value, for a host in UTC (the naive
datetime is interpreted in the host timezone; we model a UTC host). -/
def epochOf (t : DateTime6) : Int :=
  daysFromCivil t.year t.month t.day * 86400 +
    (t.hour * 3600 + t.minute * 60 + t.second : Nat)

/-- `artifact_timestamp` (`yocto/utils/artifact.py`, lines 34-44). -/
def artifact_timestamp (artifact : String) : Except String Int :=
  match extract_timestamp artifact with
  | Except.error e => Except.error e
  | Except.ok run =>
    match strptime14 run with
    | some t => Except.ok (epochOf t)
    | none => Except.error ("time data " ++ String.mk run ++
        " does not match format")

/-- Substring containment of character lists (the effect of the glob
pattern `*{needle}*` on a directory entry, and of Python's
`needle in s`). -/
def containsSeq (needle : List Char) : List Char → Bool
  | [] => needle.isEmpty
  | c :: rest => needle.isPrefixOf (c :: rest) || containsSeq needle rest

/-- `needle in haystack` on Python strings. -/
def strContains (haystack needle : String) : Bool :=
  containsSeq needle.toList haystack.toList

/-- `s.endswith(suffix)` on Python strings. -/
def strEndsWith (s suffix : String) : Bool :=
  List.isSuffixOf suffix.toList s.toList

/-- `BuildPaths.artifact_prefix()` (`yocto/utils/paths.py`). -/
def legacy_artifact_prefix : String := "cvm-image-azure-tdx.rootfs"

/-- The match list of `_artifact_from_timestamp` after the dev/non-dev
preference filter.  `files` is the artifacts-directory listing in glob
order. -/
def devFilterPool (files : List String) (timestamp : String) (dev : Bool) :
    List String :=
  let ms := files.filter (fun f => strContains f timestamp)
  if dev then
    let dm := ms.filter (fun f => strContains f "-dev-")
    if dm.isEmpty then ms else dm
  else
    let ndm := ms.filter (fun f => ¬ strContains f "-dev-")
    if ndm.isEmpty then ms else ndm

/-- The extension-preference loop of `_artifact_from_timestamp`: the
first match ending in `.vhd`, else the first ending in `.tar.gz`, else
the first ending in `.efi`, else the first match. -/
def pickByExt (pool : List String) : String :=
  match pool.find? (fun f => strEndsWith f ".vhd") with
  | some m => m
  | none =>
    match pool.find? (fun f => strEndsWith f ".tar.gz") with
    | some m => m
    | none =>
      match pool.find? (fun f => strEndsWith f ".efi") with
      | some m => m
      | none => pool.headI

/-- `_artifact_from_timestamp` (`yocto/utils/artifact.py`, lines 47-89).
`files` is the listing of the artifacts directory; the glob
`*{timestamp}*` keeps the entries containing the timestamp. -/
def artifact_from_timestamp (files : List String) (timestamp : String)
    (dev : Bool) : String :=
  if (files.filter (fun f => strContains f timestamp)).isEmpty then
    legacy_artifact_prefix ++ "-" ++ timestamp ++ ".wic.vhd"
  else
    pickByExt (devFilterPool files timestamp dev)

/-- `parse_artifact` (`yocto/utils/artifact.py`, lines 92-109).  The
`home` argument is replaced by the artifacts-directory listing it is
used to obtain (`none` models `home=None`). -/
def parse_artifact (artifact_arg : Option String)
    (files : Option (List String)) (dev : Bool) :
    Except String (Option String) :=
  match artifact_arg with
  | none => Except.ok none
  | some arg =>
    if arg = "" then Except.ok none
    else if arg.length = 14 ∧ arg.toList.all Char.isDigit then
      match files with
      | none => Except.error "home parameter required when parsing timestamp"
      | some fs => Except.ok (some (artifact_from_timestamp fs arg dev))
    else
      match find14Run arg.toList with
      | none => Except.error (invalidNameMsg arg)
      | some _ => Except.ok (some arg)

/-- The `deployed_to` scan of `delete_artifact`
(`yocto/utils/artifact.py`, lines 122-127): the VMs whose metadata
record references the artifact.  `none` where Python would raise on a
malformed document. -/
def deployed_to (metadata : JObj) (artifact : String) :
    Option (List String) := do
  let resources ← jobj? (((dictFind metadata "resources")).getD (Json.obj []))
  let hits ← resources.mapM (fun p => do
    let vms ← jobj? p.2
    let inner := vms.map (fun q =>
      match jobj? q.2 with
      | some record =>
        match dictFind record "artifact" with
        | some (Json.str s) =>
          if s = artifact then some [q.1 ++ " (" ++ p.1 ++ ")"] else some []
        | _ => some []
      | none => none)
    let inner ← inner.mapM id
    pure inner.flatten)
  pure hits.flatten

/-- The local state `delete_artifact` acts on: the artifacts-directory
listing and the metadata document. -/
structure ArtifactState where
  files : List String
  metadata : JObj

/-- `delete_artifact` (`yocto/utils/artifact.py`, lines 119-155).
`userConfirms` is the interactive answer compared against `"y"`;
`none` models an exception (malformed metadata document, or the
`ValueError` of `_extract_timestamp`). -/
def delete_artifact (artifact : String) (userConfirms : Bool)
    (st : ArtifactState) : Option ArtifactState :=
  match deployed_to st.metadata artifact with
  | none => none
  | some deployed =>
    if deployed ≠ [] ∧ userConfirms = false then some st
    else
      match find14Run artifact.toList with
      | none => none
      | some ts =>
        let tsStr := String.mk ts
        let matched := st.files.filter (fun f => strContains f tsStr)
        let remaining := st.files.filter (fun f => ¬ strContains f tsStr)
        if matched.isEmpty then some st
        else
          match remove_artifact_from_metadata artifact st.metadata with
          | none => none
          | some md => some ⟨remaining, md⟩

/-! ## Helper lemmas -/

theorem dictFind_eq_none_of_hasKey_false (l : JObj) (k : String)
    (h : hasKey l k = false) : dictFind l k = none := by
  induction l with
  | nil => simp [dictFind]
  | cons p t ih =>
    simp only [hasKey, Bool.or_eq_false_iff, decide_eq_false_iff_not] at h
    simp [dictFind, h.1, ih h.2]

theorem hasKey_setEntry_of_hasKey (l : JObj) (k c : String) (v : Json)
    (h : hasKey l k = true) : hasKey (setEntry l c v) k = true := by
  by_cases hkc : k = c
  · subst hkc; exact hasKey_setEntry_self l k v
  · rw [hasKey_setEntry_ne l c k v hkc]; exact h

theorem dictFind_ensureCloudBucket_ne (R : JObj) (cl c : String)
    (h : c ≠ cl) : dictFind (ensureCloudBucket R cl) c = dictFind R c := by
  unfold ensureCloudBucket
  by_cases hk : hasKey R cl
  · rw [if_pos hk]
  · rw [if_neg hk, dictFind_setEntry_ne R cl c _ h]

theorem hasKey_ensureCloudBucket_of_hasKey (R : JObj) (cl k : String)
    (h : hasKey R k = true) :
    hasKey (ensureCloudBucket R cl) k = true := by
  unfold ensureCloudBucket
  by_cases hk : hasKey R cl
  · rw [if_pos hk]; exact h
  · rw [if_neg hk]; exact hasKey_setEntry_of_hasKey R k cl _ h

theorem getVmRecord_eq_of_resources (md R : JObj) (c n : String)
    (hres : dictFind md "resources" = some (Json.obj R)) :
    getVmRecord md c n =
      ((dictFind R c).bind jobj?).bind (fun b => dictFind b n) := by
  simp [getVmRecord, hres, jobj?]

theorem getVmRecord_eq_none_of_no_resources (md : JObj) (c n : String)
    (hres : dictFind md "resources" = none) :
    getVmRecord md c n = none := by
  simp [getVmRecord, hres]

/-- In the lazily-created `{"azure": {}, "gcp": {}}` value every bucket
is empty, so any VM lookup through it is `none`. -/
theorem initResources_lookup_none (c n : String) :
    ((dictFind [("azure", Json.obj []), ("gcp", Json.obj [])] c).bind
      jobj?).bind (fun b => dictFind b n) = none := by
  by_cases h1 : c = "azure"
  · simp [dictFind, h1, jobj?]
  · by_cases h2 : c = "gcp"
    · simp [dictFind, h1, h2, jobj?]
    · have h1' : ¬ "azure" = c := fun hh => h1 hh.symm
      have h2' : ¬ "gcp" = c := fun hh => h2 hh.symm
      simp [dictFind, h1', h2', jobj?]

/-! ## Theorems for the claims -/

/-- An example deployment configuration used for concrete evaluations. -/
def exampleConfigs : DeployConfigs :=
  { vm := { resource_group := "node-7", name := "node-7",
            nsg_name := "node-7", cloud := "azure", region := "eastus",
            size := "Standard_DC4es_v6" }
    domain := { record := "node-7", resource_group := "yocto-testnet",
                name := "seismictest.net" }
    email := "c@seismic.systems"
    source_ip := "1.2.3.4"
    show_logs := true }

/-- A metadata document in the shape written by the deploy upsert:
the result of `update_deploy_metadata` on an initially empty document,
recording VM "node-7" under provider "azure". -/
def exampleDoc : JObj :=
  (update_deploy_metadata exampleConfigs "seismic-azure-20250110120000.vhd"
    "4.4.4.4" (some "node-7-persistent") []).getD []

/-- C1: on a document in the shape written by the deploy upsert —
resources keyed by provider, then by VM name — `filter_resources_by_cloud`
returns the empty dict even though a VM with `vm.cloud = "azure"` is
recorded under the "azure" bucket: the loop iterates provider buckets as
if they were VM records, so the recorded VM never appears in the
result. -/
theorem filter_resources_by_cloud_misses_upserted_vm :
    filter_resources_by_cloud exampleDoc "azure" = [] ∧
    getVmRecord exampleDoc "azure" "node-7" =
      some (Json.obj (vmMetadataRecord exampleConfigs
        "seismic-azure-20250110120000.vhd" "4.4.4.4"
        (some "node-7-persistent"))) := by
  constructor
  · rfl
  · rfl

/-- A metadata document that already holds an "azure" VM "node-3" and a
"gcp" VM "node-7", for the frame-property witness. -/
def exampleDoc2 : JObj :=
  [("resources", Json.obj
    [("azure", Json.obj [("node-3", Json.obj
        [("artifact", Json.str "a.vhd"),
         ("vm", Json.obj [("cloud", Json.str "azure")])])]),
     ("gcp", Json.obj [("node-7", Json.obj
        [("artifact", Json.str "b.tar.gz"),
         ("vm", Json.obj [("cloud", Json.str "gcp")])])])])]

/-- In the lazily-created resources value, a successful bucket lookup
through `ensureCloudBucket` always yields the empty bucket. -/
theorem initResources_bucket (cl : String) (b : JObj)
    (hbk : dictFind (ensureCloudBucket
      [("azure", Json.obj []), ("gcp", Json.obj [])] cl) cl =
      some (Json.obj b)) : b = [] := by
  unfold ensureCloudBucket at hbk
  by_cases h1 : cl = "azure"
  · subst h1
    simp [hasKey, dictFind] at hbk
    exact hbk
  · by_cases h2 : cl = "gcp"
    · subst h2
      simp [hasKey, dictFind] at hbk
      exact hbk
    · have h1' : ¬ "azure" = cl := fun hh => h1 hh.symm
      have h2' : ¬ "gcp" = cl := fun hh => h2 hh.symm
      rw [if_neg (by simp [hasKey, h1', h2']), dictFind_setEntry_self] at hbk
      injection hbk with hv
      injection hv with hb
      exact hb.symm

/-- C5: `update_deploy_metadata` upserts exactly the record of the
deployed VM under its provider bucket:  every VM entry of any other
provider and every other VM entry under the same provider is unchanged,
the deployed VM's record is written, and when the `resources` key is
absent both the "azure" and "gcp" buckets are created. -/
theorem update_deploy_metadata_upsert_frame (configs : DeployConfigs)
    (artifact public_ip : String) (data_disk_name : Option String)
    (metadata md2 : JObj)
    (h : update_deploy_metadata configs artifact public_ip data_disk_name
      metadata = some md2) :
    (∀ c n, c ≠ configs.vm.cloud →
      getVmRecord md2 c n = getVmRecord metadata c n) ∧
    (∀ n, n ≠ configs.vm.name →
      getVmRecord md2 configs.vm.cloud n =
        getVmRecord metadata configs.vm.cloud n) ∧
    getVmRecord md2 configs.vm.cloud configs.vm.name =
      some (Json.obj (vmMetadataRecord configs artifact public_ip
        data_disk_name)) ∧
    (hasKey metadata "resources" = false →
      ∃ r, dictFind md2 "resources" = some (Json.obj r) ∧
        hasKey r "azure" = true ∧ hasKey r "gcp" = true) := by
  simp only [update_deploy_metadata] at h
  split at h
  next resources0 hres =>
    split at h
    next bucket hbk =>
      simp only [Option.some.injEq] at h
      subst h
      set rec := Json.obj (vmMetadataRecord configs artifact public_ip
        data_disk_name) with hrec
      set B2 := setEntry bucket configs.vm.name rec with hB2
      set R2 := setEntry (ensureCloudBucket resources0 configs.vm.cloud)
        configs.vm.cloud (Json.obj B2) with hR2
      set mdN := setEntry (ensureResourcesKey metadata) "resources"
        (Json.obj R2) with hmdN
      have hres2 : dictFind mdN "resources" = some (Json.obj R2) := by
        rw [hmdN]; exact dictFind_setEntry_self _ _ _
      have hL1 : ∀ c n, c ≠ configs.vm.cloud → getVmRecord mdN c n =
          ((dictFind resources0 c).bind jobj?).bind
            (fun b => dictFind b n) := by
        intro c n hc
        rw [getVmRecord_eq_of_resources mdN R2 c n hres2, hR2,
          dictFind_setEntry_ne _ _ _ _ hc,
          dictFind_ensureCloudBucket_ne _ _ _ hc]
      have hL2 : ∀ n, n ≠ configs.vm.name →
          getVmRecord mdN configs.vm.cloud n = dictFind bucket n := by
        intro n hn
        rw [getVmRecord_eq_of_resources mdN R2 _ n hres2, hR2,
          dictFind_setEntry_self]
        simp [jobj?, dictFind_setEntry_ne _ _ _ _ hn]
      have hL3 : getVmRecord mdN configs.vm.cloud configs.vm.name =
          some rec := by
        rw [getVmRecord_eq_of_resources mdN R2 _ _ hres2, hR2,
          dictFind_setEntry_self]
        simp only [Option.some_bind, jobj?]
        rw [hB2]
        exact dictFind_setEntry_self _ _ _
      by_cases hkm : hasKey metadata "resources" = true
      · have hER : ensureResourcesKey metadata = metadata := by
          unfold ensureResourcesKey; rw [if_pos hkm]
        rw [hER] at hres
        refine ⟨?_, ?_, ?_, ?_⟩
        · intro c n hc
          rw [hL1 c n hc, getVmRecord_eq_of_resources metadata resources0
            c n hres]
        · intro n hn
          rw [hL2 n hn, getVmRecord_eq_of_resources metadata resources0
            _ n hres]
          by_cases hkr : hasKey resources0 configs.vm.cloud = true
          · have hEB : ensureCloudBucket resources0 configs.vm.cloud =
                resources0 := by
              unfold ensureCloudBucket; rw [if_pos hkr]
            rw [hEB] at hbk
            rw [hbk]
            simp [jobj?]
          · have hnone : dictFind resources0 configs.vm.cloud = none :=
              dictFind_eq_none_of_hasKey_false _ _
                (Bool.not_eq_true _ ▸ hkr)
            have hbk0 : bucket = [] := by
              have h2 : dictFind (ensureCloudBucket resources0
                  configs.vm.cloud) configs.vm.cloud =
                  some (Json.obj []) := by
                unfold ensureCloudBucket
                rw [if_neg hkr, dictFind_setEntry_self]
              rw [h2] at hbk
              injection hbk with hv
              injection hv with hb
              exact hb.symm
            rw [hbk0, hnone]
            simp [dictFind]
        · rw [hL3, hrec]
        · intro hkmF
          rw [hkmF] at hkm
          simp at hkm
      · have hkmF : hasKey metadata "resources" = false := by
          simpa using hkm
        have hres0 : resources0 =
            [("azure", Json.obj []), ("gcp", Json.obj [])] := by
          have h2 : dictFind (ensureResourcesKey metadata) "resources" =
              some (Json.obj [("azure", Json.obj []),
                ("gcp", Json.obj [])]) := by
            unfold ensureResourcesKey
            rw [if_neg hkm, dictFind_setEntry_self]
          rw [h2] at hres
          injection hres with hv
          injection hv with hb
          exact hb.symm
        have hnores : dictFind metadata "resources" = none :=
          dictFind_eq_none_of_hasKey_false _ _ hkmF
        have hbk0 : bucket = [] := initResources_bucket configs.vm.cloud
          bucket (hres0 ▸ hbk)
        refine ⟨?_, ?_, ?_, ?_⟩
        · intro c n hc
          rw [hL1 c n hc, hres0,
            getVmRecord_eq_none_of_no_resources metadata c n hnores]
          exact initResources_lookup_none c n
        · intro n hn
          rw [hL2 n hn, hbk0,
            getVmRecord_eq_none_of_no_resources metadata _ n hnores]
          simp [dictFind]
        · rw [hL3, hrec]
        · intro _
          refine ⟨R2, hres2, ?_, ?_⟩
          · rw [hR2]
            exact hasKey_setEntry_of_hasKey _ _ _ _
              (hasKey_ensureCloudBucket_of_hasKey _ _ _
                (by rw [hres0]; decide))
          · rw [hR2]
            exact hasKey_setEntry_of_hasKey _ _ _ _
              (hasKey_ensureCloudBucket_of_hasKey _ _ _
                (by rw [hres0]; decide))
    next hget => simp at h
  next hget => simp at h

/-- Witness for C5 at a concrete input: upserting "node-7" under
"azure" into a document that already holds another azure VM "node-3"
and a gcp VM "node-7" leaves both untouched, writes the new record, and
the lazy-bucket clause holds vacuously. -/
theorem update_deploy_metadata_upsert_frame_witness :
    getVmRecord ((update_deploy_metadata exampleConfigs "art.vhd" "9.9.9.9"
        none exampleDoc2).getD []) "gcp" "node-7" =
      getVmRecord exampleDoc2 "gcp" "node-7" ∧
    getVmRecord ((update_deploy_metadata exampleConfigs "art.vhd" "9.9.9.9"
        none exampleDoc2).getD []) "azure" "node-3" =
      getVmRecord exampleDoc2 "azure" "node-3" ∧
    getVmRecord ((update_deploy_metadata exampleConfigs "art.vhd" "9.9.9.9"
        none exampleDoc2).getD []) "azure" "node-7" =
      some (Json.obj (vmMetadataRecord exampleConfigs "art.vhd" "9.9.9.9"
        none)) := by
  have h := update_deploy_metadata_upsert_frame exampleConfigs "art.vhd"
    "9.9.9.9" none exampleDoc2
    ((update_deploy_metadata exampleConfigs "art.vhd" "9.9.9.9"
      none exampleDoc2).getD []) rfl
  exact ⟨h.1 "gcp" "node-7" (by decide), h.2.1 "node-3" (by decide),
    h.2.2.1⟩

/-- C9: building an Azure `VmConfigs` via `from_args` with no region
supplied always raises `ValueError`: the Azure default region constant
"eastus2" is not in the valid Azure region set checked by
`validate_region`. -/
theorem from_args_azure_default_region_invalid
    (resource_group vm_size : Option String) :
    (∃ msg, VmConfigs.from_args CloudProvider.azure resource_group none
      vm_size = Except.error msg) ∧
    azureDEFAULT_REGION ∉ AZURE_REGIONS := by
  constructor
  · refine ⟨"Invalid Azure region: eastus2. " ++
      "Valid Azure regions are: eastus, westeurope, westus3", ?_⟩
    simp [VmConfigs.from_args, get_default_region, validate_region,
      AZURE_REGIONS, azureDEFAULT_REGION, sortStrings, insertSorted,
      Except.map, String.intercalate]
    rfl
  · decide

/-- C10: `GcpApi.create_vm` is independent of its `ip_name` argument —
two calls differing only in `ip_name` build identical
instance-creation requests — and the constructed network interface
carries no access configuration, so no named static IP is bound at VM
creation on GCP. -/
theorem gcp_create_vm_independent_of_ip_name
    (config : DeployConfigs) (imageName ip1 ip2 : String) :
    GcpApi.create_vm_request config imageName ip1 =
      GcpApi.create_vm_request config imageName ip2 ∧
    (GcpApi.create_vm_request config imageName ip1).accessConfigs = [] :=
  ⟨rfl, rfl⟩

/-- C2: `deploy_image` always creates the persistent data disk
`{vmName}-persistent` with size 1024 GiB; for GCP the data disk is
passed into the single `create_vm` call (no separate attach call
appears in the trace); for Azure, `create_vm` and `attach_data_disk`
are two separate calls with the attach occurring after the VM-creation
call, at LUN 10. -/
theorem deploy_image_data_disk_contract (diskExists : Bool)
    (publicIp : String) (configs : DeployConfigs)
    (imageName ip_name : String) :
    (deploy_image true diskExists publicIp configs imageName ip_name).2 =
      Except.ok (publicIp, configs.vm.name ++ "-persistent") ∧
    CloudCall.create_data_disk configs.vm.resource_group
      (configs.vm.name ++ "-persistent") configs.vm.location 1024 ∈
      (deploy_image true diskExists publicIp configs imageName ip_name).1 ∧
    (configs.vm.cloud = "gcp" →
      CloudCall.create_vm ip_name
        (VmConfigs.get_disk_name configs.vm.name imageName)
        (some (configs.vm.name ++ "-persistent")) ∈
        (deploy_image true diskExists publicIp configs imageName ip_name).1 ∧
      ∀ rg vm dn z lun, CloudCall.attach_data_disk rg vm dn z lun ∉
        (deploy_image true diskExists publicIp configs imageName ip_name).1) ∧
    (configs.vm.cloud = "azure" →
      ∃ pre post,
        (deploy_image true diskExists publicIp configs imageName ip_name).1 =
        pre ++ [CloudCall.create_vm ip_name
                  (VmConfigs.get_disk_name configs.vm.name imageName) none,
                CloudCall.attach_data_disk configs.vm.resource_group
                  configs.vm.name (configs.vm.name ++ "-persistent")
                  configs.vm.location 10] ++ post) := by
  by_cases hc : configs.vm.cloud = "gcp"
  · refine ⟨?_, ?_, ?_, ?_⟩
    · cases diskExists <;> simp [deploy_image, hc]
    · cases diskExists <;> simp [deploy_image, hc]
    · intro _
      constructor
      · cases diskExists <;> simp [deploy_image, hc]
      · intro rg vm dn z lun hmem
        cases diskExists <;> simp [deploy_image, hc] at hmem
    · intro hca
      rw [hca] at hc
      simp at hc
  · refine ⟨?_, ?_, ?_, ?_⟩
    · cases diskExists <;> simp [deploy_image, hc]
    · cases diskExists <;> simp [deploy_image, hc]
    · intro hca; exact absurd hca hc
    · intro _
      cases diskExists
      · refine ⟨[CloudCall.disk_exists_query
            (VmConfigs.get_disk_name configs.vm.name imageName),
          CloudCall.create_disk
            (VmConfigs.get_disk_name configs.vm.name imageName),
          CloudCall.upload_disk, CloudCall.create_nsg,
          CloudCall.create_standard_nsg_rules,
          CloudCall.create_data_disk configs.vm.resource_group
            (configs.vm.name ++ "-persistent") configs.vm.location 1024],
          [CloudCall.get_vm_ip configs.vm.name configs.vm.resource_group
            configs.vm.location], ?_⟩
        simp [deploy_image, hc]
      · refine ⟨[CloudCall.disk_exists_query
            (VmConfigs.get_disk_name configs.vm.name imageName),
          CloudCall.upload_disk, CloudCall.create_nsg,
          CloudCall.create_standard_nsg_rules,
          CloudCall.create_data_disk configs.vm.resource_group
            (configs.vm.name ++ "-persistent") configs.vm.location 1024],
          [CloudCall.get_vm_ip configs.vm.name configs.vm.resource_group
            configs.vm.location], ?_⟩
        simp [deploy_image, hc]

/-- C4: `deploy_image` fails with `FileNotFound` before any cloud call
when the image path does not exist; and when the boot disk (derived
name `{vmName}_{artifactFilename}`) already exists, it performs no
disk-creation call but still performs the NSG creation, the standard
NSG-rule creation and the VM creation. -/
theorem deploy_image_missing_image_and_existing_disk (diskExists : Bool)
    (publicIp : String) (configs : DeployConfigs)
    (imageName ip_name : String) :
    deploy_image false diskExists publicIp configs imageName ip_name =
      ([], Except.error ("Image path not found: " ++ imageName)) ∧
    ((∀ d, CloudCall.create_disk d ∉
        (deploy_image true true publicIp configs imageName ip_name).1) ∧
      CloudCall.create_nsg ∈
        (deploy_image true true publicIp configs imageName ip_name).1 ∧
      CloudCall.create_standard_nsg_rules ∈
        (deploy_image true true publicIp configs imageName ip_name).1 ∧
      (∃ dd, CloudCall.create_vm ip_name
        (VmConfigs.get_disk_name configs.vm.name imageName) dd ∈
        (deploy_image true true publicIp configs imageName ip_name).1)) := by
  constructor
  · simp [deploy_image]
  · by_cases hc : configs.vm.cloud = "gcp"
    · refine ⟨?_, ?_, ?_,
        ⟨some (configs.vm.name ++ "-persistent"), ?_⟩⟩
      · intro d hmem
        simp [deploy_image, hc] at hmem
      · simp [deploy_image, hc]
      · simp [deploy_image, hc]
      · simp [deploy_image, hc]
    · refine ⟨?_, ?_, ?_, ⟨none, ?_⟩⟩
      · intro d hmem
        simp [deploy_image, hc] at hmem
      · simp [deploy_image, hc]
      · simp [deploy_image, hc]
      · simp [deploy_image, hc]

/-- C3: after a first successful `get_or_create_node_ip` (where the
cloud allocates a nonempty address), a second call over the resulting
cloud state returns the identical `(ip, "genesis-node-{n}")` pair via
the existing-IP lookup alone — its trace holds no confirmation prompt
and no IP creation, and the state is unchanged; and on a first call
that found no IP resource named `genesis-node-{n}`, the user must have
confirmed and a new static IP was created. -/
theorem get_or_create_node_ip_idempotent (st : IpState) (confirms : Bool)
    (freshIp rg : String) (node : Nat) (region : String)
    (calls : List GenCall) (ip name : String) (st2 : IpState)
    (hok : get_or_create_node_ip st confirms freshIp rg node region =
      Except.ok (calls, (ip, name), st2))
    (hfresh : freshIp ≠ "") :
    name = "genesis-node-" ++ toString node ∧
    (∀ confirms2 freshIp2,
      get_or_create_node_ip st2 confirms2 freshIp2 rg node region =
        Except.ok ([GenCall.ensure_resource_group rg region,
                    GenCall.get_existing_public_ip name rg],
                   (ip, name), st2)) ∧
    (lookupIp st name rg = none →
      confirms = true ∧ ip = freshIp ∧
      st2 = recordIp st name rg freshIp ∧
      calls = [GenCall.ensure_resource_group rg region,
               GenCall.get_existing_public_ip name rg,
               GenCall.confirm_prompt ("create new IP for node " ++
                 toString node ++ " @ " ++ name),
               GenCall.create_public_ip name rg region]) := by
  have hl : ∀ fp, lookupIp (recordIp st ("genesis-node-" ++ toString node)
      rg fp) ("genesis-node-" ++ toString node) rg = some fp := by
    intro fp
    simp [lookupIp, recordIp, List.find?]
  simp only [get_or_create_node_ip] at hok
  split at hok
  next existing hex =>
    by_cases hemp : existing = ""
    · rw [if_pos hemp] at hok
      cases hcf : confirms
      · rw [hcf] at hok
        simp at hok
      · rw [hcf] at hok
        simp only [if_true, Except.ok.injEq, Prod.mk.injEq] at hok
        obtain ⟨hcalls, ⟨hip, hname⟩, hst⟩ := hok
        subst hname hip hst
        refine ⟨rfl, ?_, ?_⟩
        · intro confirms2 freshIp2
          simp [get_or_create_node_ip, hl, hfresh]
        · intro hnone
          rw [hex] at hnone
          exact absurd hnone (by simp)
    · rw [if_neg hemp] at hok
      simp only [Except.ok.injEq, Prod.mk.injEq] at hok
      obtain ⟨hcalls, ⟨hip, hname⟩, hst⟩ := hok
      subst hname hip hst
      refine ⟨rfl, ?_, ?_⟩
      · intro confirms2 freshIp2
        simp [get_or_create_node_ip, hex, hemp]
      · intro hnone
        rw [hex] at hnone
        exact absurd hnone (by simp)
  next hex =>
    cases hcf : confirms
    · rw [hcf] at hok
      simp at hok
    · rw [hcf] at hok
      simp only [if_true, Except.ok.injEq, Prod.mk.injEq] at hok
      obtain ⟨hcalls, ⟨hip, hname⟩, hst⟩ := hok
      subst hname hip hst
      refine ⟨rfl, ?_, ?_⟩
      · intro confirms2 freshIp2
        simp [get_or_create_node_ip, hl, hfresh]
      · intro _
        exact ⟨rfl, rfl, rfl, hcalls.symm⟩

/-- Witness for C3 at a concrete input: the empty cloud state, a
confirming user, fresh IP "1.2.3.4", node 1; the second call (with a
declining user and a different fresh IP) returns the identical pair
without creating anything. -/
theorem get_or_create_node_ip_idempotent_witness :
    get_or_create_node_ip
      (recordIp ⟨[]⟩ "genesis-node-1" "genesis-ips" "1.2.3.4")
      false "" "genesis-ips" 1 "eastus" =
      Except.ok ([GenCall.ensure_resource_group "genesis-ips" "eastus",
                  GenCall.get_existing_public_ip "genesis-node-1"
                    "genesis-ips"],
                 ("1.2.3.4", "genesis-node-1"),
                 recordIp ⟨[]⟩ "genesis-node-1" "genesis-ips" "1.2.3.4") :=
  (get_or_create_node_ip_idempotent ⟨[]⟩ true "1.2.3.4" "genesis-ips" 1
    "eastus" _ _ _ _ rfl (by decide)).2.1 false ""

/-! ### Lemmas on the leftmost 14-digit run -/

theorem digits14?_eq_some (ds s : List Char) (h14 : ds.length = 14)
    (hd : ds.all Char.isDigit = true) : digits14? (ds ++ s) = some ds := by
  unfold digits14?
  rw [List.take_append_of_le_length (by omega),
    List.take_of_length_le (le_of_eq h14)]
  simp [h14, hd]

theorem find14Run_of_digits14 (l r : List Char)
    (h : digits14? l = some r) : find14Run l = some r := by
  cases l with
  | nil => simp [digits14?] at h
  | cons c t => simp [find14Run, h]

theorem find14Run_self (ds : List Char) (h14 : ds.length = 14)
    (hd : ds.all Char.isDigit = true) : find14Run ds = some ds := by
  have h := digits14?_eq_some ds [] h14 hd
  rw [List.append_nil] at h
  exact find14Run_of_digits14 ds ds h

theorem find14Run_append (p tail : List Char)
    (hfail : ∀ q : List Char, q ≠ [] → q <:+ p →
      digits14? (q ++ tail) = none) :
    find14Run (p ++ tail) = find14Run tail := by
  induction p with
  | nil => simp
  | cons c t ih =>
    have h1 : digits14? ((c :: t) ++ tail) = none :=
      hfail (c :: t) (by simp) (List.suffix_refl _)
    rw [List.cons_append] at h1 ⊢
    rw [show find14Run (c :: (t ++ tail)) =
      match digits14? (c :: (t ++ tail)) with
      | some run => some run
      | none => find14Run (t ++ tail) from rfl, h1]
    exact ih (fun q hq hsuf => hfail q hq (hsuf.trans (List.suffix_cons c t)))

theorem find14Run_none_suffix (p : List Char)
    (hp : find14Run p = none) :
    ∀ q : List Char, q <:+ p → digits14? q = none := by
  induction p with
  | nil =>
    intro q hq
    rw [List.suffix_nil.mp hq]
    simp [digits14?]
  | cons c t ih =>
    intro q hq
    have hsplit : digits14? (c :: t) = none ∧ find14Run t = none := by
      cases heq : digits14? (c :: t) with
      | some r =>
        rw [show find14Run (c :: t) =
          match digits14? (c :: t) with
          | some run => some run
          | none => find14Run t from rfl, heq] at hp
        simp at hp
      | none =>
        rw [show find14Run (c :: t) =
          match digits14? (c :: t) with
          | some run => some run
          | none => find14Run t from rfl, heq] at hp
        exact ⟨rfl, hp⟩
    rcases List.suffix_cons_iff.mp hq with h | h
    · rw [h]; exact hsplit.1
    · exact ih hsplit.2 q h

theorem digits14?_append_none_of_short (q X : List Char)
    (hlt : q.length < 14)
    (hbad : ∃ c ∈ q, c.isDigit = false) :
    digits14? (q ++ X) = none := by
  unfold digits14?
  have hall : ((q ++ X).take 14).all Char.isDigit = false := by
    rw [List.take_append_eq_append_take,
      List.take_of_length_le (le_of_lt hlt)]
    obtain ⟨c, hcm, hcd⟩ := hbad
    exact List.all_eq_false.mpr ⟨c, List.mem_append_left _ hcm, by simp [hcd]⟩
  simp [hall]

theorem digits14?_append_none_of_long (q X : List Char)
    (hge : 14 ≤ q.length) (hq : digits14? q = none) :
    digits14? (q ++ X) = none := by
  unfold digits14? at hq ⊢
  rw [List.take_append_of_le_length hge]
  exact hq

/-- The leftmost 14-digit run of `p ++ ds ++ s` is `ds` whenever `ds` is
a 14-digit run, `p` holds no 14 consecutive digits, and `p` does not end
in a digit. -/
theorem find14Run_embed (p ds s : List Char)
    (h14 : ds.length = 14) (hd : ds.all Char.isDigit = true)
    (hp : find14Run p = none)
    (hpl : ∀ c, p.getLast? = some c → c.isDigit = false) :
    find14Run (p ++ (ds ++ s)) = some ds := by
  rw [find14Run_append p (ds ++ s) ?hfail]
  · exact find14Run_of_digits14 _ _ (digits14?_eq_some ds s h14 hd)
  case hfail =>
    intro q hq hsuf
    by_cases hlen : 14 ≤ q.length
    · exact digits14?_append_none_of_long q _ hlen
        (find14Run_none_suffix p hp q hsuf)
    · apply digits14?_append_none_of_short q _ (by omega)
      obtain ⟨r, hr⟩ := hsuf
      cases hql : q.getLast? with
      | none => exact absurd (List.getLast?_eq_none_iff.mp hql) hq
      | some c =>
        refine ⟨c, List.mem_of_mem_getLast? (by rw [hql]; rfl), ?_⟩
        apply hpl c
        rw [← hr, List.getLast?_append, hql]
        rfl

theorem artifact_timestamp_eq_of_find (a : String) (r : List Char)
    (h : find14Run a.toList = some r) :
    artifact_timestamp a =
      match strptime14 r with
      | some t => Except.ok (epochOf t)
      | none => Except.error ("time data " ++ String.mk r ++
          " does not match format") := by
  unfold artifact_timestamp extract_timestamp
  rw [h]

theorem artifact_timestamp_eq_of_none (a : String)
    (h : find14Run a.toList = none) :
    artifact_timestamp a = Except.error (invalidNameMsg a) := by
  unfold artifact_timestamp extract_timestamp
  rw [h]

/-- C6: for an artifact filename `p ++ ds ++ s` whose unique 14-digit
run is `ds` (the prefix `p` holds no 14 consecutive digits and does not
end in a digit; the suffix `s` holds no 14 consecutive digits and does
not start with one), `artifact_timestamp` is independent of `p` and `s`
and returns the epoch value of the `YYYYMMDDHHMMSS` timestamp `ds`;
for a filename with no 14-digit run it fails with an error message
showing both the old-format and the new-format example filenames. -/
theorem artifact_timestamp_unique_run (p ds s : String)
    (h14 : ds.toList.length = 14)
    (hd : ds.toList.all Char.isDigit = true)
    (hp : find14Run p.toList = none)
    (hpl : ∀ c, p.toList.getLast? = some c → c.isDigit = false)
    (hs : find14Run s.toList = none)
    (hsh : ∀ c, s.toList.head? = some c → c.isDigit = false) :
    (artifact_timestamp (p ++ ds ++ s) = artifact_timestamp ds ∧
      ∀ t, strptime14 ds.toList = some t →
        artifact_timestamp (p ++ ds ++ s) = Except.ok (epochOf t)) ∧
    (∀ a : String, find14Run a.toList = none →
      ∃ pre mid post, artifact_timestamp a =
        Except.error (pre ++ oldExample ++ mid ++ newExample ++ post)) := by
  have htl : (p ++ ds ++ s).toList = p.toList ++ (ds.toList ++ s.toList) := by
    show (p ++ ds ++ s).data = p.data ++ (ds.data ++ s.data)
    rw [String.data_append, String.data_append, List.append_assoc]
  have hfind : find14Run (p ++ ds ++ s).toList = some ds.toList := by
    rw [htl]
    exact find14Run_embed p.toList ds.toList s.toList h14 hd hp hpl
  have hfind2 : find14Run ds.toList = some ds.toList :=
    find14Run_self ds.toList h14 hd
  refine ⟨⟨?_, ?_⟩, ?_⟩
  · rw [artifact_timestamp_eq_of_find _ _ hfind,
      artifact_timestamp_eq_of_find _ _ hfind2]
  · intro t ht
    rw [artifact_timestamp_eq_of_find _ _ hfind, ht]
  · intro a ha
    refine ⟨"Invalid artifact name: " ++ a ++ ". Should be like \"",
      "\" or \"", "\"", ?_⟩
    rw [artifact_timestamp_eq_of_none a ha]
    rfl

/-- Witness for C6 at the spec's example: the filename
`seismic-dev-azure-20250110120000.vhd` resolves to the epoch value of
2025-01-10T12:00:00 (1736510400), independently of its prefix and
suffix, and a name with no 14-digit run produces the descriptive
error. -/
theorem artifact_timestamp_unique_run_witness :
    artifact_timestamp ("seismic-dev-azure-" ++ "20250110120000" ++ ".vhd") =
      Except.ok 1736510400 ∧
    (∃ pre mid post, artifact_timestamp "seismic.vhd" =
      Except.error (pre ++ oldExample ++ mid ++ newExample ++ post)) := by
  have hpl : ∀ c, "seismic-dev-azure-".toList.getLast? = some c →
      c.isDigit = false := by
    intro c h
    have h2 : some '-' = some c := h
    injection h2 with h3
    rw [← h3]
    decide
  have hsh : ∀ c, ".vhd".toList.head? = some c → c.isDigit = false := by
    intro c h
    have h2 : some '.' = some c := h
    injection h2 with h3
    rw [← h3]
    decide
  have h := artifact_timestamp_unique_run "seismic-dev-azure-"
    "20250110120000" ".vhd" rfl (by decide) (by decide) hpl (by decide) hsh
  constructor
  · have h2 := h.1.2 ⟨2025, 1, 10, 12, 0, 0⟩ (by decide)
    rw [h2]
    rfl
  · exact h.2 "seismic.vhd" (by decide)

/-! ### Lemmas for the artifact-resolution preferences (C7) -/

theorem headI_mem_self {α : Type} [Inhabited α] {l : List α}
    (h : l ≠ []) : l.headI ∈ l := by
  cases l with
  | nil => exact absurd rfl h
  | cons a t => simp [List.headI]

theorem pickByExt_mem (pool : List String) (h : pool ≠ []) :
    pickByExt pool ∈ pool := by
  unfold pickByExt
  cases h1 : pool.find? (fun f => strEndsWith f ".vhd") with
  | some m => exact List.mem_of_find?_eq_some h1
  | none =>
    cases h2 : pool.find? (fun f => strEndsWith f ".tar.gz") with
    | some m => exact List.mem_of_find?_eq_some h2
    | none =>
      cases h3 : pool.find? (fun f => strEndsWith f ".efi") with
      | some m => exact List.mem_of_find?_eq_some h3
      | none => exact headI_mem_self h

theorem pickByExt_vhd (pool : List String)
    (h : ∃ f ∈ pool, strEndsWith f ".vhd" = true) :
    strEndsWith (pickByExt pool) ".vhd" = true := by
  unfold pickByExt
  cases h1 : pool.find? (fun f => strEndsWith f ".vhd") with
  | some m =>
    have h2 := List.find?_some h1
    exact h2
  | none =>
    obtain ⟨f, hf, hfe⟩ := h
    have h2 := List.find?_eq_none.mp h1 f hf
    exact absurd hfe h2

theorem pickByExt_targz (pool : List String)
    (hv : ∀ f ∈ pool, strEndsWith f ".vhd" = false)
    (h : ∃ f ∈ pool, strEndsWith f ".tar.gz" = true) :
    strEndsWith (pickByExt pool) ".tar.gz" = true := by
  unfold pickByExt
  have h1 : pool.find? (fun f => strEndsWith f ".vhd") = none :=
    List.find?_eq_none.mpr (fun f hf => by simp [hv f hf])
  rw [h1]
  cases h2 : pool.find? (fun f => strEndsWith f ".tar.gz") with
  | some m =>
    have h3 := List.find?_some h2
    exact h3
  | none =>
    obtain ⟨f, hf, hfe⟩ := h
    have h3 := List.find?_eq_none.mp h2 f hf
    exact absurd hfe h3

theorem pickByExt_efi (pool : List String)
    (hv : ∀ f ∈ pool, strEndsWith f ".vhd" = false ∧
      strEndsWith f ".tar.gz" = false)
    (h : ∃ f ∈ pool, strEndsWith f ".efi" = true) :
    strEndsWith (pickByExt pool) ".efi" = true := by
  unfold pickByExt
  have h1 : pool.find? (fun f => strEndsWith f ".vhd") = none :=
    List.find?_eq_none.mpr (fun f hf => by simp [(hv f hf).1])
  have h2 : pool.find? (fun f => strEndsWith f ".tar.gz") = none :=
    List.find?_eq_none.mpr (fun f hf => by simp [(hv f hf).2])
  rw [h1, h2]
  cases h3 : pool.find? (fun f => strEndsWith f ".efi") with
  | some m =>
    have h4 := List.find?_some h3
    exact h4
  | none =>
    obtain ⟨f, hf, hfe⟩ := h
    have h4 := List.find?_eq_none.mp h3 f hf
    exact absurd hfe h4

theorem devFilterPool_ne_nil (files : List String) (ts : String)
    (dev : Bool) (h : files.filter (fun f => strContains f ts) ≠ []) :
    devFilterPool files ts dev ≠ [] := by
  unfold devFilterPool
  cases dev
  · by_cases hnd : (files.filter (fun f => strContains f ts)).filter
        (fun f => ¬ strContains f "-dev-") = []
    · simp only [Bool.false_eq_true, if_false, hnd, List.isEmpty_nil,
        if_true]
      exact h
    · simp only [Bool.false_eq_true, if_false]
      rw [if_neg (by simpa [List.isEmpty_iff] using hnd)]
      exact hnd
  · by_cases hd : (files.filter (fun f => strContains f ts)).filter
        (fun f => strContains f "-dev-") = []
    · simp only [if_true, hd, List.isEmpty_nil]
      exact h
    · simp only [if_true]
      rw [if_neg (by simpa [List.isEmpty_iff] using hd)]
      exact hd

theorem devFilterPool_subset (files : List String) (ts : String)
    (dev : Bool) (f : String) (h : f ∈ devFilterPool files ts dev) :
    f ∈ files ∧ strContains f ts = true := by
  unfold devFilterPool at h
  cases dev <;>
    simp only [if_true, if_false, Bool.false_eq_true] at h <;>
    split at h <;>
    first
      | exact ⟨(List.mem_filter.mp h).1, (List.mem_filter.mp h).2⟩
      | · have h2 := List.mem_filter.mp h
          have h3 := List.mem_filter.mp h2.1
          exact ⟨h3.1, h3.2⟩

theorem devFilterPool_dev_pref (files : List String) (ts : String)
    (hex : ∃ f ∈ files, strContains f ts = true ∧
      strContains f "-dev-" = true) :
    ∀ f ∈ devFilterPool files ts true, strContains f "-dev-" = true := by
  intro f hf
  unfold devFilterPool at hf
  obtain ⟨g, hg, hgts, hgd⟩ := hex
  have hne : (files.filter (fun f => strContains f ts)).filter
      (fun f => strContains f "-dev-") ≠ [] := by
    intro hnil
    exact absurd hgd (List.filter_eq_nil_iff.mp hnil g
      (List.mem_filter.mpr ⟨hg, hgts⟩))
  rw [if_pos rfl, if_neg (by simpa [List.isEmpty_iff] using hne)] at hf
  exact (List.mem_filter.mp hf).2

theorem devFilterPool_nondev_pref (files : List String) (ts : String)
    (hex : ∃ f ∈ files, strContains f ts = true ∧
      strContains f "-dev-" = false) :
    ∀ f ∈ devFilterPool files ts false,
      strContains f "-dev-" = false := by
  intro f hf
  unfold devFilterPool at hf
  obtain ⟨g, hg, hgts, hgd⟩ := hex
  have hne : (files.filter (fun f => strContains f ts)).filter
      (fun f => ¬ strContains f "-dev-") ≠ [] := by
    intro hnil
    have := List.filter_eq_nil_iff.mp hnil g
      (List.mem_filter.mpr ⟨hg, hgts⟩)
    simp [hgd] at this
  rw [if_neg (by simp), if_neg (by simpa [List.isEmpty_iff] using hne)]
    at hf
  have := (List.mem_filter.mp hf).2
  simpa using this

/-- C7: `parse_artifact` on a bare 14-digit timestamp resolves it by
scanning the artifacts directory: the result is a directory entry
containing the timestamp, dev entries are preferred when `dev` is true
(non-dev entries otherwise), and within the preferred pool extensions
are preferred in the order `.vhd`, then `.tar.gz`, then `.efi`.  For
any other non-empty argument a 14-digit timestamp must be extractable
(error otherwise) and the argument is returned unchanged. -/
theorem parse_artifact_resolution (files : List String) (ts : String)
    (dev : Bool) (h14 : ts.length = 14)
    (hdig : ts.toList.all Char.isDigit = true) :
    (parse_artifact (some ts) (some files) dev =
      Except.ok (some (artifact_from_timestamp files ts dev)) ∧
     (files.filter (fun f => strContains f ts) ≠ [] →
      (artifact_from_timestamp files ts dev ∈ devFilterPool files ts dev ∧
       (∀ f ∈ devFilterPool files ts dev,
         f ∈ files ∧ strContains f ts = true) ∧
       (dev = true →
         (∃ f ∈ files, strContains f ts = true ∧
           strContains f "-dev-" = true) →
         strContains (artifact_from_timestamp files ts dev) "-dev-" =
           true) ∧
       (dev = false →
         (∃ f ∈ files, strContains f ts = true ∧
           strContains f "-dev-" = false) →
         strContains (artifact_from_timestamp files ts dev) "-dev-" =
           false) ∧
       ((∃ f ∈ devFilterPool files ts dev, strEndsWith f ".vhd" = true) →
         strEndsWith (artifact_from_timestamp files ts dev) ".vhd" = true) ∧
       ((∀ f ∈ devFilterPool files ts dev, strEndsWith f ".vhd" = false) →
         (∃ f ∈ devFilterPool files ts dev, strEndsWith f ".tar.gz" = true) →
         strEndsWith (artifact_from_timestamp files ts dev) ".tar.gz" =
           true) ∧
       ((∀ f ∈ devFilterPool files ts dev, strEndsWith f ".vhd" = false ∧
           strEndsWith f ".tar.gz" = false) →
         (∃ f ∈ devFilterPool files ts dev, strEndsWith f ".efi" = true) →
         strEndsWith (artifact_from_timestamp files ts dev) ".efi" =
           true)))) ∧
    (∀ (arg : String) (fs : Option (List String)) (dv : Bool),
      arg ≠ "" → ¬(arg.length = 14 ∧ arg.toList.all Char.isDigit = true) →
      (find14Run arg.toList = none →
        parse_artifact (some arg) fs dv =
          Except.error (invalidNameMsg arg)) ∧
      (∀ run, find14Run arg.toList = some run →
        parse_artifact (some arg) fs dv = Except.ok (some arg))) := by
  have hts : ts ≠ "" := by
    intro h
    rw [h] at h14
    simp at h14
  constructor
  · constructor
    · simp only [parse_artifact]
      rw [if_neg hts, if_pos ⟨h14, hdig⟩]
    · intro hne
      have hpool := devFilterPool_ne_nil files ts dev hne
      have hval : artifact_from_timestamp files ts dev =
          pickByExt (devFilterPool files ts dev) := by
        unfold artifact_from_timestamp
        rw [if_neg (by simpa [List.isEmpty_iff] using hne)]
      refine ⟨?_, ?_, ?_, ?_, ?_, ?_, ?_⟩
      · rw [hval]; exact pickByExt_mem _ hpool
      · intro f hf; exact devFilterPool_subset files ts dev f hf
      · intro hdv hex
        subst hdv
        exact devFilterPool_dev_pref files ts hex _
          (hval ▸ (hval ▸ pickByExt_mem _ hpool))
      · intro hdv hex
        subst hdv
        exact devFilterPool_nondev_pref files ts hex _
          (hval ▸ (hval ▸ pickByExt_mem _ hpool))
      · intro hex
        rw [hval]; exact pickByExt_vhd _ hex
      · intro hall hex
        rw [hval]; exact pickByExt_targz _ hall hex
      · intro hall hex
        rw [hval]; exact pickByExt_efi _ hall hex
  · intro arg fs dv harg hnot
    constructor
    · intro hrun
      simp only [parse_artifact]
      rw [if_neg harg, if_neg hnot, hrun]
    · intro run hrun
      simp only [parse_artifact]
      rw [if_neg harg, if_neg hnot, hrun]

/-- Witness for C7 at a concrete directory: resolving the timestamp
`20250110120000` with `dev = true` among a dev `.vhd`, a non-dev `.vhd`
and a dev `.tar.gz` picks the dev `.vhd`; an argument with no 14-digit
run errors, and a full filename is returned unchanged. -/
theorem parse_artifact_resolution_witness :
    parse_artifact (some "20250110120000")
      (some ["seismic-azure-20240101000000.vhd",
             "seismic-dev-azure-20250110120000.tar.gz",
             "seismic-dev-azure-20250110120000.vhd"]) true =
      Except.ok (some "seismic-dev-azure-20250110120000.vhd") ∧
    parse_artifact (some "bad-name.vhd") none false =
      Except.error (invalidNameMsg "bad-name.vhd") ∧
    parse_artifact (some "seismic-azure-20240101000000.vhd") none false =
      Except.ok (some "seismic-azure-20240101000000.vhd") := by
  have h := parse_artifact_resolution
    ["seismic-azure-20240101000000.vhd",
     "seismic-dev-azure-20250110120000.tar.gz",
     "seismic-dev-azure-20250110120000.vhd"]
    "20250110120000" true rfl (by decide)
  refine ⟨?_, ?_, ?_⟩
  · rw [h.1.1]
    rfl
  · exact (h.2 "bad-name.vhd" none false (by decide) (by decide)).1
      (by decide)
  · exact (h.2 "seismic-azure-20240101000000.vhd" none false (by decide)
      (by decide)).2 "20240101000000".toList (by decide)

/-! ### Lemmas and theorem for `delete_artifact` (C8) -/

/-- The entry of an artifact in the `artifacts` bucket of a metadata
document. -/
def getArtifactEntry (metadata : JObj) (name : String) : Option Json :=
  ((dictFind metadata "artifacts").bind jobj?).bind
    (fun a => dictFind a name)

theorem remove_artifact_entry (name : String) (md md2 : JObj)
    (h : remove_artifact_from_metadata name md = some md2) :
    getArtifactEntry md2 name = none ∧
    (∀ other, other ≠ name →
      getArtifactEntry md2 other = getArtifactEntry md other) := by
  unfold remove_artifact_from_metadata at h
  split at h
  next hart =>
    injection h with h2
    subst h2
    constructor
    · simp [getArtifactEntry, hart]
    · intro other _
      rfl
  next artifacts hart =>
    by_cases hk : hasKey artifacts name = true
    · rw [if_pos hk] at h
      injection h with h2
      subst h2
      constructor
      · simp [getArtifactEntry, dictFind_setEntry_self, jobj?,
          dictFind_eraseEntry_self]
      · intro other hne
        simp [getArtifactEntry, dictFind_setEntry_self, jobj?, hart,
          dictFind_eraseEntry_ne _ _ _ hne]
    · rw [if_neg hk] at h
      injection h with h2
      subst h2
      refine ⟨?_, fun other _ => rfl⟩
      simp [getArtifactEntry, hart, jobj?,
        dictFind_eq_none_of_hasKey_false _ _ (by simpa using hk)]
  next j h1 h2 =>
    simp at h

/-- C8: `delete_artifact` with the artifact referenced by at least one
VM and the confirmation declined leaves the files and the metadata
document unchanged; when confirmed or unreferenced, it deletes exactly
the files whose name contains the artifact's timestamp and removes the
artifact's metadata entry; and when zero files match the timestamp it
changes nothing and does not remove the metadata entry. -/
theorem delete_artifact_frame (artifact : String) (confirms : Bool)
    (st : ArtifactState) (dep : List String)
    (hdep : deployed_to st.metadata artifact = some dep) :
    (dep ≠ [] → confirms = false →
      delete_artifact artifact confirms st = some st) ∧
    (∀ ts, find14Run artifact.toList = some ts →
      (dep = [] ∨ confirms = true) →
      ((∀ f ∈ st.files, strContains f (String.mk ts) = false) →
        delete_artifact artifact confirms st = some st) ∧
      (∀ md2, (∃ f ∈ st.files, strContains f (String.mk ts) = true) →
        remove_artifact_from_metadata artifact st.metadata = some md2 →
        delete_artifact artifact confirms st =
          some ⟨st.files.filter
            (fun f => ¬ strContains f (String.mk ts)), md2⟩ ∧
        getArtifactEntry md2 artifact = none)) := by
  constructor
  · intro hne hcf
    simp only [delete_artifact, hdep]
    rw [if_pos ⟨hne, hcf⟩]
  · intro ts hts hok
    have hcond : ¬ (dep ≠ [] ∧ confirms = false) := by
      rcases hok with h | h
      · simp [h]
      · simp [h]
    constructor
    · intro hall
      simp only [delete_artifact, hdep, hts]
      rw [if_neg hcond]
      have hmt : st.files.filter
          (fun f => strContains f (String.mk ts)) = [] :=
        List.filter_eq_nil_iff.mpr (fun f hf => by simp [hall f hf])
      rw [hmt]
      rfl
    · intro md2 hex hmd
      have hmt : (st.files.filter
          (fun f => strContains f (String.mk ts))).isEmpty = false := by
        rw [List.isEmpty_eq_false]
        intro hnil
        obtain ⟨f, hf, hfc⟩ := hex
        exact absurd hfc (by simp [List.filter_eq_nil_iff.mp hnil f hf])
      constructor
      · simp only [delete_artifact, hdep, hts]
        rw [if_neg hcond, if_neg (by simp [hmt]), hmd]
      · exact (remove_artifact_entry artifact st.metadata md2 hmd).1

/-- A metadata document and directory listing for the `delete_artifact`
witness: the artifact is referenced by VM "node-7" under "azure" and has
an `artifacts` entry; the listing holds one matching file and one
unrelated file. -/
def exampleDelState : ArtifactState :=
  { files := ["seismic-azure-20240101000000.vhd", "other-file.txt"]
    metadata :=
      [("artifacts", Json.obj
         [("seismic-azure-20240101000000.vhd", Json.obj [])]),
       ("resources", Json.obj
         [("azure", Json.obj [("node-7", Json.obj
            [("artifact",
              Json.str "seismic-azure-20240101000000.vhd")])])])] }

/-- Witness for C8 at `exampleDelState`: declining the prompt leaves
the state unchanged; confirming deletes exactly the matching file and
removes the artifact's metadata entry. -/
theorem delete_artifact_frame_witness :
    delete_artifact "seismic-azure-20240101000000.vhd" false
      exampleDelState = some exampleDelState ∧
    (delete_artifact "seismic-azure-20240101000000.vhd" true
      exampleDelState =
      some ⟨["other-file.txt"],
        [("artifacts", Json.obj []),
         ("resources", Json.obj
           [("azure", Json.obj [("node-7", Json.obj
              [("artifact",
                Json.str "seismic-azure-20240101000000.vhd")])])])]⟩ ∧
     getArtifactEntry
       [("artifacts", Json.obj []),
        ("resources", Json.obj
          [("azure", Json.obj [("node-7", Json.obj
             [("artifact",
               Json.str "seismic-azure-20240101000000.vhd")])])])]
       "seismic-azure-20240101000000.vhd" = none) := by
  have h := delete_artifact_frame "seismic-azure-20240101000000.vhd"
    false exampleDelState ["node-7 (azure)"] rfl
  have h2 := delete_artifact_frame "seismic-azure-20240101000000.vhd"
    true exampleDelState ["node-7 (azure)"] rfl
  constructor
  · exact h.1 (by decide) rfl
  · have h3 := (h2.2 "20240101000000".toList (by decide)
      (Or.inr rfl)).2
      [("artifacts", Json.obj []),
       ("resources", Json.obj
         [("azure", Json.obj [("node-7", Json.obj
            [("artifact",
              Json.str "seismic-azure-20240101000000.vhd")])])])]
      ⟨"seismic-azure-20240101000000.vhd", by decide, by decide⟩ rfl
    constructor
    · rw [h3.1]
      rfl
    · exact h3.2

end Deploy
